import Mathlib

/-!
Verification of the core of the mx-puppet-skype relay: the rich-text
translators (MatrixMessageParser, SkypeMessageParser), the per-account
remote client (Client: connect, contact/conversation caches), and the
ConversationRelay handlers (Skype class: dedup locks around outbound
sends, edit/redact correlation).  The TypeScript sources are embedded
shallowly: DOM trees become an inductive type, external collaborators
(node-emoji, the HTML parser, the remote API) become explicit
parameters or oracles, and the async handlers become pure functions
emitting an effect trace.
-/

set_option maxRecDepth 8192

/-- A parsed markup DOM node, as produced by node-html-parser: either a
text node, or an element node with a tag name (the empty string stands
for the parser root, whose tagName is null), attributes, and children. -/
inductive DomNode where
  | text : String → DomNode
  | elem : String → List (String × String) → List DomNode → DomNode

/-- Attribute access, `node.attributes.x`: a missing attribute is
JavaScript undefined, which stringifies to "undefined" when spliced
into a template string. -/
def attrOf (attrs : List (String × String)) (name : String) : String :=
  match attrs.lookup name with
  | some v => v
  | none => "undefined"

/-- The escape-html package: replaces the five HTML special characters
by their entities. -/
def escapeHtml (s : String) : String :=
  String.join (s.data.map fun c =>
    if c = '&' then "&amp;"
    else if c = '"' then "&quot;"
    else if c = '\'' then "&#39;"
    else if c = '<' then "&lt;"
    else if c = '>' then "&gt;"
    else String.singleton c)

namespace MatrixMessageParser

/-- MatrixMessageParser.escape: the identity (text passes through
unescaped; the remote network does its own decoding). -/
def escape (s : String) : String := s

mutual

/-- MatrixMessageParser.walkNode, transcribed case by case from
src/src/matrixmessageparser.ts. -/
def walkNode : DomNode → String
  | .text s => escape s
  | .elem tag attrs children =>
    if tag = "em" ∨ tag = "i" then
      "<i raw_pre=\"_\" raw_post=\"_\">" ++ walkList children ++ "</i>"
    else if tag = "strong" ∨ tag = "b" then
      "<b raw_pre=\"*\" raw_post=\"*\">" ++ walkList children ++ "</b>"
    else if tag = "del" then
      "<s raw_pre=\"~\" raw_post=\"~\">" ++ walkList children ++ "</s>"
    else if tag = "code" then
      "<pre raw_pre=\"{code}\" raw_post=\"{code}\">" ++ walkList children ++ "</pre>"
    else if tag = "a" then
      "<a href=\"" ++ escapeHtml (attrOf attrs "href") ++ "\">" ++ walkList children ++ "</a>"
    else if tag = "wrap" then
      walkList children
    else if tag = "" then
      walkList children
    else
      "<" ++ tag ++ ">" ++ walkList children ++ "</" ++ tag ++ ">"

/-- MatrixMessageParser.walkChildNodes: childNodes.map(walkNode).join(""). -/
def walkList : List DomNode → String
  | [] => ""
  | n :: ns => walkNode n ++ walkList ns

end

/-- Modelled from the spec: node-html-parser (an external library, not
part of this repository) parses a markup-free string wrapped as
`<wrap>msg</wrap>` into a tagless root element holding the wrap element
holding one text node.  MatrixMessageParser.parse is walkNode applied
to that root. -/
def parseWrapPlain (msg : String) : DomNode :=
  .elem "" [] [.elem "wrap" [] [.text msg]]

end MatrixMessageParser

example : MatrixMessageParser.walkNode (.elem "u" [] [.text "hi"]) = "<u>hi</u>" := by decide

example : MatrixMessageParser.walkNode (MatrixMessageParser.parseWrapPlain "hello there") = "hello there" := by decide

/-- Entity table of the decode-html package. -/
def entityMap : String → Option String
  | "amp" => some "&"
  | "apos" => some "\x27"
  | "lt" => some "<"
  | "gt" => some ">"
  | "quot" => some "\""
  | "nbsp" => some "\xa0"
  | _ => none

/-- One step of the decode-html regex replace: at a position right
after an ampersand, try to match ([a-zA-Z]+); — on success return the
replacement (the entity value when known, the whole match unchanged
otherwise) together with the characters after the semicolon. -/
def matchEntity (rest : List Char) : Option (List Char × List Char) :=
  let letters := rest.takeWhile Char.isAlpha
  if letters.isEmpty then none
  else
    match rest.drop letters.length with
    | ';' :: tail =>
      match entityMap (String.mk (letters.map Char.toLower)) with
      | some v => some (v.data, tail)
      | none => some ('&' :: (letters ++ [';']), tail)
    | _ => none

/-- The decode-html replace loop, structurally recursive on a fuel
bound: every step consumes at least one character, so fuel equal to
the input length never runs out (if it did, the remaining characters
pass through untouched). -/
def decodeHtmlFuel : Nat → List Char → List Char
  | 0, cs => cs
  | _ + 1, [] => []
  | fuel + 1, c :: rest =>
    if c = '&' then
      match matchEntity rest with
      | some (rep, tail) => rep ++ decodeHtmlFuel fuel tail
      | none => c :: decodeHtmlFuel fuel rest
    else c :: decodeHtmlFuel fuel rest

/-- The decode-html package: text.replace(/&([a-z]+);/ig, ...) with the
entity table above, scanning left to right. -/
def decodeHtml (s : String) : String :=
  String.mk (decodeHtmlFuel s.data.length s.data)

example : decodeHtml "a &amp; b &LT; c" = "a & b < c" := by decide
example : decodeHtml "&&amp;&bogus; x" = "&&&bogus; x" := by decide

/-- JavaScript String.replace with a plain-string pattern: replaces
only the first occurrence. -/
def jsReplaceFirstChars (pat rep : List Char) : List Char → List Char
  | [] => []
  | c :: cs =>
    if pat.isPrefixOf (c :: cs) then rep ++ (c :: cs).drop pat.length
    else c :: jsReplaceFirstChars pat rep cs

def jsReplaceFirst (s pat rep : String) : String :=
  String.mk (jsReplaceFirstChars pat.data rep.data s.data)

example : jsReplaceFirst "a\nb\nc" "\n" "<br>" = "a<br>b\nc" := by decide

/-- The inbound message event: both projections of a decoded remote
message, body and formattedBody (IMessageEvent of mx-puppet-bridge,
with the formattedBody always set by this parser). -/
structure MessageEvent where
  body : String
  formattedBody : String
deriving DecidableEq, Repr

namespace SkypeMessageParser

/-- Pairwise combination used by childNodes.map(...).reduce(...): both
projections concatenate. -/
def combine (a b : MessageEvent) : MessageEvent :=
  ⟨a.body ++ b.body, a.formattedBody ++ b.formattedBody⟩

/-- JS Array.reduce with no initial value on the (possibly empty after
the explicit empty-list guard) list of child results: fold from the
first element; the empty child list yields the empty pair. -/
def reduceEvents : List MessageEvent → MessageEvent
  | [] => ⟨"", ""⟩
  | x :: xs => xs.foldl combine x

/-- SkypeMessageParser.escape: body is the HTML-entity-decoded text,
formattedBody is s.replace("\n", "<br>"). -/
def escape (s : String) : MessageEvent :=
  ⟨decodeHtml s, jsReplaceFirst s "\n" "<br>"⟩

/-- JavaScript Boolean() of a possibly-undefined string. -/
def jsTruthyOpt (o : Option String) : Bool := o.getD "" ≠ ""

/-- JavaScript String.startsWith, on the character lists. -/
def jsStartsWith (s pre : String) : Bool := pre.data.isPrefixOf s.data

/-- The fixed skype-emoji-type to canonical-emoji-name translation
table of the ss case (commented-out TODO entries are absent). -/
def skypeEmojiTable : String → Option String
  | "smile" => some "slightly_smiling_face"
  | "sad" => some "slightly_frowning_face"
  | "laugh" => some "grin"
  | "cool" => some "sunglasses"
  | "hearteyes" => some "heart_eyes"
  | "stareyes" => some "star-struck"
  | "like" => some "thumbsup"
  | "cwl" => some "rolling_on_the_floor_laughing"
  | "xd" => some "laughing"
  | "happyface" => some "smiley"
  | "happyeyes" => some "smile"
  | "sweatgrinning" => some "sweat_smile"
  | "blankface" => some "no_mouth"
  | "surprised" => some "astonished"
  | "upsidedownface" => some "upside_down_face"
  | "loudlycrying" => some "sob"
  | "shivering" => some "🥶"
  | "speechless" => some "😐️"
  | "tongueout" => some "stuck_out_tongue"
  | "winktongueout" => some "stuck_out_tongue_winking_eye"
  | "inlove" => some "🥰"
  | "yawn" => some "🥱"
  | "puke" => some "face_vomiting"
  | "angryface" => some "angry"
  | "angry" => some "rage"
  | "screamingfear" => some "scream"
  | "nerdy" => some "nerd_face"
  | "loveearth" => some "🌍️"
  | "devil" => some "smiling_imp"
  | "think" => some "thinking_face"
  | "rofl" => some "rolling_on_the_floor_laughing"
  | _ => none

/-- node-emoji (external library) abstracted by its name-to-glyph
table em: emoji.get(name) returns the glyph when known and the
colon-wrapped name otherwise. -/
def emojiGet (em : String → Option String) (name : String) : String :=
  match em name with
  | some g => g
  | none => ":" ++ name ++ ":"

/-- The ss (skype emoji) case of walkNode, transcribed from the
source: translate the type through the fixed table (falling back to
the raw type), resolve via node-emoji, retry the resolution with a
"_face" suffix on the resolved name, and fall back to the bare resolved
name (table hit) or the literal parenthesised type (table miss). -/
def ssEmoji (em : String → Option String) (ty : String) : MessageEvent :=
  let emojiType0 := skypeEmojiTable ty
  let haveEmojiType := jsTruthyOpt emojiType0
  let emojiType := if jsTruthyOpt emojiType0 then emojiType0.getD "" else ty
  let e0 := emojiGet em emojiType
  let e := if e0 = ":" ++ emojiType ++ ":" then emojiGet em (emojiType ++ "_face") else e0
  if jsStartsWith e ":" = false then ⟨e, e⟩
  else if haveEmojiType then ⟨emojiType, emojiType⟩
  else ⟨"(" ++ ty ++ ")", "(" ++ escapeHtml ty ++ ")"⟩

mutual

/-- SkypeMessageParser.walkNode (the quote/ss-aware version),
transcribed case by case; em is the node-emoji table, noQuotes the
opts.noQuotes flag.  Node kinds other than text and element map to the
final empty return. -/
def walkNode (em : String → Option String) (noQuotes : Bool) : DomNode → MessageEvent
  | .text s => escape s
  | .elem tag attrs children =>
    if tag = "i" then
      let child := reduceEvents (walkList em noQuotes children)
      ⟨"_" ++ child.body ++ "_", "<em>" ++ child.formattedBody ++ "</em>"⟩
    else if tag = "b" then
      let child := reduceEvents (walkList em noQuotes children)
      ⟨"*" ++ child.body ++ "*", "<strong>" ++ child.formattedBody ++ "</strong>"⟩
    else if tag = "s" then
      let child := reduceEvents (walkList em noQuotes children)
      ⟨"~" ++ child.body ++ "~", "<del>" ++ child.formattedBody ++ "</del>"⟩
    else if tag = "pre" then
      let child := reduceEvents (walkList em noQuotes children)
      ⟨"{code}" ++ child.body ++ "{code}", "<code>" ++ child.formattedBody ++ "</code>"⟩
    else if tag = "a" then
      let href := attrOf attrs "href"
      let child := reduceEvents (walkList em noQuotes children)
      ⟨if child.body = href then href else "[" ++ child.body ++ "](" ++ href ++ ")",
       "<a href=\"" ++ escapeHtml href ++ "\">" ++ child.formattedBody ++ "</a>"⟩
    else if tag = "quote" then
      if noQuotes then ⟨"", ""⟩
      else
        let child := reduceEvents (walkList em noQuotes children)
        ⟨"> " ++ child.body ++ "\n",
         "<blockquote>" ++ child.formattedBody ++ "<br> - " ++ attrOf attrs "authorname" ++ "</blockquote>"⟩
    else if tag = "ss" then ssEmoji em (attrOf attrs "type")
    else if tag = "e_m" ∨ tag = "legacyquote" then ⟨"", ""⟩
    else reduceEvents (walkList em noQuotes children)

/-- The list map underlying walkChildNodes. -/
def walkList (em : String → Option String) (noQuotes : Bool) : List DomNode → List MessageEvent
  | [] => []
  | n :: ns => walkNode em noQuotes n :: walkList em noQuotes ns

end

/-- SkypeMessageParser.walkChildNodes: the empty child list yields the
empty pair, otherwise map walkNode over the children and reduce by
concatenating both projections. -/
def walkChildNodes (em : String → Option String) (noQuotes : Bool) (children : List DomNode) : MessageEvent :=
  reduceEvents (walkList em noQuotes children)

end SkypeMessageParser

example :
    SkypeMessageParser.walkNode (fun _ => none) false (.elem "b" [] [.text "hi"]) =
      ⟨"*hi*", "<strong>hi</strong>"⟩ := by decide

example :
    SkypeMessageParser.ssEmoji (fun n => if n = "thumbsup" then some "👍" else none) "like" =
      ⟨"👍", "👍"⟩ := by decide

example :
    SkypeMessageParser.ssEmoji (fun _ => none) "shivering" = ⟨"🥶", "🥶"⟩ := by decide

example :
    SkypeMessageParser.ssEmoji (fun _ => none) "wasntme" = ⟨"(wasntme)", "(wasntme)"⟩ := by decide

/-- JavaScript String.split on a one-character separator. -/
def splitOnChar (sep : Char) : List Char → List (List Char)
  | [] => [[]]
  | c :: rest =>
    match splitOnChar sep rest with
    | [] => if c = sep then [[], []] else [[c]]
    | g :: gs => if c = sep then [] :: g :: gs else (c :: g) :: gs

def jsSplit (s : String) (sep : Char) : List String :=
  (splitOnChar sep s.data).map String.mk

example : jsSplit "dm-12-8:abc" '-' = ["dm", "12", "8:abc"] := by decide

/-- Decimal value of a digit string. -/
def digitVal (cs : List Char) : Nat :=
  cs.foldl (fun a c => 10 * a + (c.toNat - 48)) 0

/-- JavaScript Number() restricted to the shapes the relay feeds it:
the empty string is 0, a digit string is its decimal value, anything
else is NaN (none). -/
def jsToNat (s : String) : Option Nat :=
  if s.data = [] then some 0
  else if s.data.all Char.isDigit then some (digitVal s.data)
  else none

/-- Match of /^\d+:/ (an id already namespaced with a numeric kind). -/
def hasNumColonStart (cs : List Char) : Bool :=
  let ds := cs.takeWhile Char.isDigit
  decide (ds ≠ []) && (match cs.drop ds.length with
    | ':' :: _ => true
    | _ => false)

/-- JavaScript id.substr(id.indexOf(":") + 1): everything after the
first colon, or the whole string when there is none. -/
def afterFirstColon (s : String) : String :=
  match s.data.dropWhile (fun c => c ≠ ':') with
  | [] => s
  | _ :: t => String.mk t

/-- Match of the anchored regular expression dm-(digits)- on a room
id: on success returns the suffix after the matched composite prefix,
as id.substr with the match length. -/
def dmMatch (s : String) : Option String :=
  match s.data with
  | 'd' :: 'm' :: '-' :: rest =>
    let ds := rest.takeWhile Char.isDigit
    if ds = [] then none
    else
      match rest.drop ds.length with
      | '-' :: tail => some (String.mk tail)
      | _ => none
  | _ => none

example : dmMatch "dm-12-8:abc" = some "8:abc" := by decide
example : dmMatch "19:group" = none := by decide
example : dmMatch "dm--x" = none := by decide

/-- An assoc-list model of a JavaScript Map: lookup of the most recent
binding. -/
def mapLookup {α : Type} : List (String × α) → String → Option α
  | [], _ => none
  | (k0, v0) :: rest, k => if k0 = k then some v0 else mapLookup rest k

/-- Map.set: replace the binding when present, append otherwise. -/
def mapSet {α : Type} : List (String × α) → String → α → List (String × α)
  | [], k, v => [(k, v)]
  | (k0, v0) :: rest, k, v =>
    if k0 = k then (k, v) :: rest else (k0, v0) :: mapSet rest k v

theorem mapLookup_mapSet_self {α : Type} (m : List (String × α)) (k : String) (v : α) :
    mapLookup (mapSet m k v) k = some v := by
  induction m with
  | nil => simp [mapSet, mapLookup]
  | cons hd tl ih =>
    obtain ⟨k0, v0⟩ := hd
    by_cases hk : k0 = k <;> simp [mapSet, mapLookup, hk, ih]

namespace Client

/-- The relay-side contact record built by Client.getContact (the
fields the relay consumes; mri is rawContact.id.raw and keys the
cache on success). -/
structure SkypeContact where
  mri : String
  displayName : String
deriving DecidableEq, Repr

/-- The thread properties of a remote conversation. -/
structure ThreadProps where
  topic : Option String
  picture : Option String
deriving DecidableEq, Repr

/-- A remote conversation as returned by the skype-http collaborator. -/
structure Conversation where
  id : String
  threadProperties : Option ThreadProps
  members : List String
deriving DecidableEq, Repr

/-- An IRemoteRoom spec: the bridged account id plus the room id. -/
structure RemoteRoom where
  puppetId : Nat
  roomId : String
deriving DecidableEq, Repr

/-- Client.getContact over an explicit cache state.  The remote
api.getContact call is the oracle `api`, absorbing the translation of
the raw lookup result into a SkypeContact; none is any throw of the
lookup or of that translation (both land in the same catch).  Returns
the result, the updated cache, and how many remote lookups were
issued. -/
def getContact (api : String → Option SkypeContact)
    (contacts : List (String × Option SkypeContact)) (id : String) :
    Option SkypeContact × List (String × Option SkypeContact) × Nat :=
  let hasStart := hasNumColonStart id.data
  let fullId := if hasStart then id else "8:" ++ id
  match mapLookup contacts fullId with
  | some cached => (cached, contacts, 0)
  | none =>
    let lookupId := if hasStart then afterFirstColon id else id
    match api lookupId with
    | some contact => (some contact, mapSet contacts contact.mri (some contact), 1)
    | none => (none, mapSet contacts fullId none, 1)

/-- The shared tail of Client.getConversation once the lookup id is
fixed: cached entry (including a negative one) wins, otherwise the
remote api.getConversation oracle is consulted and the result —
positive under the conversation's own id, negative under the lookup
id — is cached; a throw (none) is returned as absent. -/
def convLookup (api : String → Option Conversation)
    (conversations : List (String × Option Conversation)) (id : String) :
    Option Conversation × List (String × Option Conversation) × Nat :=
  match mapLookup conversations id with
  | some cached => (cached, conversations, 0)
  | none =>
    match api id with
    | some conversation =>
      (some conversation, mapSet conversations conversation.id (some conversation), 1)
    | none => (none, mapSet conversations id none, 1)

/-- Client.getConversation: a roomId matching the dm-(digits)- shape must embed
this account's puppet id (checked through Number(roomId.split("-")[1]))
or the call answers absent outright; the composite prefix is stripped
before the cache lookup.  Other room ids are looked up as given. -/
def getConversation (api : String → Option Conversation)
    (conversations : List (String × Option Conversation)) (room : RemoteRoom) :
    Option Conversation × List (String × Option Conversation) × Nat :=
  match dmMatch room.roomId with
  | some rest =>
    if jsToNat ((jsSplit room.roomId '-').getD 1 "") ≠ some room.puppetId then
      (none, conversations, 0)
    else convLookup api conversations rest
  | none => convLookup api conversations room.roomId

end Client

example :
    Client.getConversation (fun _ => none) [] ⟨2, "dm-3-8:bob"⟩ = (none, [], 0) := by decide

example :
    Client.getConversation (fun _ => none) [] ⟨3, "dm-3-8:bob"⟩ =
      (none, [("8:bob", none)], 1) := by decide

example :
    (Client.getContact (fun _ => none) [] "bob").2.1 = [("8:bob", none)] := by decide

namespace Client

/-- A connect step of Client.connect: either a session-reuse connect
(skypeHttp.connect with the persisted state blob) or a
credential-login connect. -/
inductive ConnectAttempt where
  | reuse
  | creds
deriving DecidableEq, Repr

/-- How Client.connect can fail: the rejection of a credential login
(the authentication error), or the rejection of the post-connect
startupApi step. -/
inductive ConnectError where
  | credsConnect
  | startup
deriving DecidableEq, Repr

/-- The overall outcome of Client.connect. -/
inductive ConnectResult where
  | ok
  | fail (e : ConnectError)
deriving DecidableEq, Repr

/-- The outcomes of every suspension point Client.connect can reach,
fixed up front: whether a persisted state blob exists, whether each
kind of skypeHttp.connect resolves, whether startupApi resolves on
each kind of connection, and whether an error event fires within the
five-second grace period while listening on a reused-session
connection (the post-connect validation). -/
structure ConnectEnv where
  hasState : Bool
  reuseOk : Bool
  credsOk : Bool
  startupReuseOk : Bool
  startupCredsOk : Bool
  listenErrorReuse : Bool
deriving DecidableEq, Repr

/-- Client.connect as a decision tree over ConnectEnv, following the
source control flow: reuse the state blob when present, falling back
to credentials on a reuse rejection; run startupApi, retrying once
with credentials when it fails on a reused session (a failure on a
credential session propagates); when still on a reused session,
validate by listening with a grace period and, if an error event beats
the timer, stop listening and redo the connect with credentials plus
startupApi.  Returns the connect attempts in order plus the overall
outcome. -/
def connect (env : ConnectEnv) : List ConnectAttempt × ConnectResult :=
  if env.hasState then
    if env.reuseOk then
      if env.startupReuseOk then
        if env.listenErrorReuse then
          if env.credsOk then
            if env.startupCredsOk then ([.reuse, .creds], .ok)
            else ([.reuse, .creds], .fail .startup)
          else ([.reuse, .creds], .fail .credsConnect)
        else ([.reuse], .ok)
      else
        if env.credsOk then
          if env.startupCredsOk then ([.reuse, .creds], .ok)
          else ([.reuse, .creds], .fail .startup)
        else ([.reuse, .creds], .fail .credsConnect)
    else
      if env.credsOk then
        if env.startupCredsOk then ([.reuse, .creds], .ok)
        else ([.reuse, .creds], .fail .startup)
      else ([.reuse, .creds], .fail .credsConnect)
  else
    if env.credsOk then
      if env.startupCredsOk then ([.creds], .ok)
      else ([.creds], .fail .startup)
    else ([.creds], .fail .credsConnect)

end Client

/-- A home-bound message payload (IMessageEvent handed to the
bridging framework): the body, an optional formattedBody, and the
emote flag. -/
structure HomeMessage where
  body : String
  formattedBody : Option String
  emote : Bool
deriving DecidableEq, Repr

namespace Skype

open Client

/-- The per-account relay entry the handlers read: the account's own
remote identity (p.client.username) and the contents of the
deletedMessages expire-set at handling time. -/
structure SkypePuppet where
  username : String
  deletedMessages : List String
deriving DecidableEq, Repr

/-- The part of getSendParams the inbound handlers consume. -/
structure SendParams where
  userUserId : String
  roomRoomId : String
  eventId : String
deriving DecidableEq, Repr

/-- One observable action of a relay handler, in program order. -/
inductive Effect where
  | lock (key sender content : String)
  | unlock (key sender id : String)
  | dedupeCheck (key sender eventId content : String)
  | clientSendMessage (convId msg : String)
  | clientSendEdit (convId messageId msg : String)
  | clientSendDelete (convId messageId : String)
  | clientSendFile (method convId filename : String)
  | downloadFile (url : String)
  | eventInsert (puppetId : Nat) (matrixId remoteId : String)
  | addDeletedMessage (id : String)
  | homeSendMessage (msg : HomeMessage)
  | homeSendEdit (origEventId : String) (msg : HomeMessage)
  | homeSendRedact (origEventId : String)
deriving DecidableEq, Repr

/-- An IRemoteRoom as built by Skype.getRoomParams. -/
structure RemoteRoomParams where
  puppetId : Nat
  roomId : String
  isDirect : Bool
  name : Option String
  avatarUrl : Option String
deriving DecidableEq, Repr

/-- Skype.getRoomParams: a conversation whose id starts with the
numeric kind ROOM_TYPE_DM (8) is direct and addressed by the
composite dm-(puppetId)-(conversation id) key; any other conversation
keeps its raw remote id and carries the decoded topic and the
URL-tagged picture. -/
def getRoomParams (puppetId : Nat) (conv : Conversation) : RemoteRoomParams :=
  let roomType := jsToNat ((jsSplit conv.id ':').getD 0 "")
  if roomType = some 8 then
    ⟨puppetId, "dm-" ++ toString puppetId ++ "-" ++ conv.id, true, none, none⟩
  else
    let name := match conv.threadProperties with
      | some tp =>
        match tp.topic with
        | some t => if t = "" then none else some (decodeHtml t)
        | none => none
      | none => none
    let avatarUrl := match conv.threadProperties with
      | some tp =>
        match tp.picture with
        | some pic =>
          if SkypeMessageParser.jsStartsWith pic "URL@" then
            some (String.mk (pic.data.drop 4))
          else none
        | none => none
      | none => none
    ⟨puppetId, conv.id, false, name, avatarUrl⟩

/-- The dedup key used by every handler. -/
def dedupeKey (puppetId : Nat) (roomId : String) : String :=
  toString puppetId ++ ";" ++ roomId

/-- The outbound rendering step shared by handleMatrixMessage and
handleMatrixEdit: parse the formatted body through
MatrixMessageParser when one is given, escape the plain body
otherwise. -/
def renderMatrix (formattedDom : Option DomNode) (body : String) : String :=
  match formattedDom with
  | some dom => MatrixMessageParser.walkNode dom
  | none => escapeHtml body

/-- The emote handling shared by the inbound handlers: when the
resource carries a truthy skypeemoteoffset, the content is cut at
that offset (content.substr(Number(offset))). -/
def emoteStrip (content : String) (off : Option Nat) : String :=
  match off with
  | some o => String.mk (content.data.drop o)
  | none => content

/-- The inbound rendering step of handleSkypeText and handleSkypeEdit:
rich content goes through SkypeMessageParser (giving both
projections), plain content becomes a bare body. -/
def renderSkype (em : String → Option String) (htmlParse : String → DomNode)
    (rich : Bool) (msg : String) (emote : Bool) : HomeMessage :=
  if rich then
    let parsed := SkypeMessageParser.walkNode em false (htmlParse msg)
    ⟨parsed.body, some parsed.formattedBody, emote⟩
  else ⟨msg, none, emote⟩

/-- Skype.handleMatrixMessage as its effect trace.  Oracles: p is the
registry entry (none drops the event), conv the awaited
getConversation result (none drops with a warning), formattedDom the
node-html-parser output on the formatted body when one is given, and
sentMessageId the MessageId of the send result (empty for a missing
id, matching JS truthiness). -/
def handleMatrixMessage (p : Option SkypePuppet) (conv : Option Conversation)
    (room : RemoteRoom) (dataBody : String) (formattedDom : Option DomNode)
    (dataEventId : String) (sentMessageId : String) : List Effect :=
  match p with
  | none => []
  | some p =>
    match conv with
    | none => []
    | some conversation =>
      let msg := renderMatrix formattedDom dataBody
      let key := dedupeKey room.puppetId room.roomId
      [Effect.lock key p.username msg,
       Effect.clientSendMessage conversation.id msg,
       Effect.unlock key p.username sentMessageId]
      ++ (if sentMessageId ≠ "" then
            [Effect.eventInsert room.puppetId dataEventId sentMessageId] else [])

/-- Skype.handleMatrixEdit as its effect trace; eventId is the remote
message id under edit.  The unlock id is the local constant
newEventId, which the source sets to the empty string and never to
the send result, so the trailing event-sync insert is dead code. -/
def handleMatrixEdit (p : Option SkypePuppet) (conv : Option Conversation)
    (room : RemoteRoom) (eventId : String) (dataBody : String)
    (formattedDom : Option DomNode) (dataEventId : String) : List Effect :=
  match p with
  | none => []
  | some p =>
    match conv with
    | none => []
    | some conversation =>
      let msg := renderMatrix formattedDom dataBody
      let key := dedupeKey room.puppetId room.roomId
      let newEventId := ""
      [Effect.lock key p.username msg,
       Effect.clientSendEdit conversation.id eventId msg,
       Effect.unlock key p.username newEventId]
      ++ (if newEventId ≠ "" then
            [Effect.eventInsert room.puppetId dataEventId newEventId] else [])

/-- Skype.handleMatrixRedact as its effect trace: record the deleted
message id before issuing the remote delete. -/
def handleMatrixRedact (p : Option SkypePuppet) (conv : Option Conversation)
    (_room : RemoteRoom) (eventId : String) : List Effect :=
  match p with
  | none => []
  | some _ =>
    match conv with
    | none => []
    | some conversation =>
      [Effect.addDeletedMessage eventId,
       Effect.clientSendDelete conversation.id eventId]

/-- Skype.handleMatrixFile (also reached from handleMatrixImage and
handleMatrixAudio via their method argument) as its effect trace. -/
def handleMatrixFile (p : Option SkypePuppet) (conv : Option Conversation)
    (room : RemoteRoom) (dataUrl : String) (dataFilename : String)
    (dataEventId : String) (sentMessageId : String) (method : Option String) : List Effect :=
  let method := method.getD "sendDocument"
  match p with
  | none => []
  | some p =>
    match conv with
    | none => []
    | some conversation =>
      let key := dedupeKey room.puppetId room.roomId
      [Effect.downloadFile dataUrl,
       Effect.lock key p.username ("file:" ++ dataFilename),
       Effect.clientSendFile method conversation.id dataFilename,
       Effect.unlock key p.username sentMessageId]
      ++ (if sentMessageId ≠ "" then
            [Effect.eventInsert room.puppetId dataEventId sentMessageId] else [])

/-- Skype.handleSkypeEdit as its effect trace.  Oracles: p and params
as above, dedupeHit the awaited MessageDeduplicator.dedupe verdict,
em the node-emoji table and htmlParse the external parse of the
(possibly emote-stripped) content.  After the dedup check: non-empty
resource content relays an edit, empty content with the id in
deletedMessages is suppressed, empty content otherwise relays a
redact. -/
def handleSkypeEdit (em : String → Option String) (htmlParse : String → DomNode)
    (p : Option SkypePuppet) (params : Option SendParams) (dedupeHit : Bool)
    (puppetId : Nat) (messagetype : String) (content : String) (resourceId : String)
    (emoteOffset : Option Nat) : List Effect :=
  match p with
  | none => []
  | some p =>
    let rich := SkypeMessageParser.jsStartsWith messagetype "RichText"
    match params with
    | none => []
    | some params =>
      let msg := emoteStrip content emoteOffset
      let emote := emoteOffset.isSome
      let key := dedupeKey puppetId params.roomRoomId
      let check := Effect.dedupeCheck key params.userUserId params.eventId msg
      if dedupeHit then [check]
      else
        let sendMsg := renderSkype em htmlParse rich msg emote
        if content ≠ "" then [check, Effect.homeSendEdit resourceId sendMsg]
        else if p.deletedMessages.contains resourceId then [check]
        else [check, Effect.homeSendRedact resourceId]

end Skype

example :
    Skype.handleMatrixEdit (some ⟨"8:me", []⟩) (some ⟨"8:bob", none, []⟩)
        ⟨1, "dm-1-8:bob"⟩ "mid5" "hi" none "mx1" =
      [.lock "1;dm-1-8:bob" "8:me" "hi",
       .clientSendEdit "8:bob" "mid5" "hi",
       .unlock "1;dm-1-8:bob" "8:me" ""] := by decide

example :
    Skype.handleSkypeEdit (fun _ => none) (fun s => .text s) (some ⟨"8:me", ["d1"]⟩)
        (some ⟨"8:bob", "dm-1-8:bob", "ev1"⟩) false 1 "Text" "" "d1" none =
      [.dedupeCheck "1;dm-1-8:bob" "8:bob" "ev1" ""] := by decide

/-! Helper lemmas shared by the claim theorems. -/

/-- Concatenation of a list of strings. -/
def concatStrings : List String → String
  | [] => ""
  | s :: rest => s ++ concatStrings rest

theorem foldl_combine_eq (xs : List MessageEvent) (acc : MessageEvent) :
    xs.foldl SkypeMessageParser.combine acc =
      ⟨acc.body ++ concatStrings (xs.map MessageEvent.body),
       acc.formattedBody ++ concatStrings (xs.map MessageEvent.formattedBody)⟩ := by
  induction xs generalizing acc with
  | nil => simp [concatStrings, String.append_empty]
  | cons x xs ih =>
    simp only [List.foldl_cons, List.map_cons, concatStrings, ih,
      SkypeMessageParser.combine, String.append_assoc]

theorem reduceEvents_eq (l : List MessageEvent) :
    SkypeMessageParser.reduceEvents l =
      ⟨concatStrings (l.map MessageEvent.body),
       concatStrings (l.map MessageEvent.formattedBody)⟩ := by
  cases l with
  | nil => rfl
  | cons x xs =>
    simp only [SkypeMessageParser.reduceEvents, foldl_combine_eq, List.map_cons, concatStrings]

/-- C1.  The claim states that MatrixMessageParser handles an element
with an unrecognized tag by dropping the wrapper and emitting only the
transformed children.  The source's default case instead re-emits the
tag around the transformed children (dropping only its attributes):
on an unknown u element the output keeps the u wrapper, so it differs
from the bare concatenation of the transformed children. -/
theorem c1_counterexample :
    MatrixMessageParser.walkNode (DomNode.elem "u" [] [DomNode.text "hi"]) ≠
      MatrixMessageParser.walkList [DomNode.text "hi"] ∧
    MatrixMessageParser.walkNode (DomNode.elem "u" [] [DomNode.text "hi"]) = "<u>hi</u>" ∧
    MatrixMessageParser.walkList [DomNode.text "hi"] = "hi" := by
  exact ⟨by decide, by decide, by decide⟩

/-- C1, amended.  For every element whose tag is not one of the
recognized encode-time tags (em/i, strong/b, del, code, a, and the
implicit wrap root): a named unrecognized tag is re-emitted without
its attributes around the concatenation of the recursively transformed
children, and only a tagless element (the parser root) drops its
wrapper; either way no error is raised and no child content is
dropped, and on plain text with no markup, parse returns the text
unchanged. -/
theorem c1_amended (tag : String) (attrs : List (String × String)) (children : List DomNode)
    (hmem : tag ∉ ["em", "i", "strong", "b", "del", "code", "a", "wrap"]) :
    (tag ≠ "" →
      MatrixMessageParser.walkNode (DomNode.elem tag attrs children) =
        "<" ++ tag ++ ">" ++ MatrixMessageParser.walkList children ++ "</" ++ tag ++ ">") ∧
    (tag = "" →
      MatrixMessageParser.walkNode (DomNode.elem tag attrs children) =
        MatrixMessageParser.walkList children) ∧
    (∀ msg : String,
      MatrixMessageParser.walkNode (MatrixMessageParser.parseWrapPlain msg) = msg) := by
  simp only [List.mem_cons, List.not_mem_nil, or_false, not_or] at hmem
  obtain ⟨h1, h2, h3, h4, h5, h6, h7, h8⟩ := hmem
  refine ⟨fun hne => ?_, fun heq => ?_, fun msg => ?_⟩
  · simp [MatrixMessageParser.walkNode, h1, h2, h3, h4, h5, h6, h7, h8, hne]
  · simp [MatrixMessageParser.walkNode, h1, h2, h3, h4, h5, h6, h7, h8, heq]
  · simp [MatrixMessageParser.parseWrapPlain, MatrixMessageParser.walkNode,
      MatrixMessageParser.walkList, MatrixMessageParser.escape, String.append_empty]

/-- C1 witness: the amended statement evaluated on a concrete unknown
tag and on concrete plain text. -/
theorem c1_amended_witness :
    MatrixMessageParser.walkNode (DomNode.elem "u" [] [DomNode.text "hi"]) = "<u>hi</u>" ∧
    MatrixMessageParser.walkNode (MatrixMessageParser.parseWrapPlain "hello world") =
      "hello world" := by
  have h := c1_amended "u" [] [DomNode.text "hi"] (by decide)
  refine ⟨?_, h.2.2 "hello world"⟩
  have h1 := h.1 (by decide)
  rw [h1]
  decide

/-- C7.  For every decode-time element whose tag is not recognized
(not i, b, s, pre, a, quote, ss, e_m, or legacyquote),
SkypeMessageParser emits no wrapper and yields exactly the children's
walk, which concatenates both the body and formattedBody projections
of the recursively decoded children; a node with an empty child list
decodes to the empty pair. -/
theorem c7_unknown_tag_and_empty (em : String → Option String) (nq : Bool)
    (tag : String) (attrs : List (String × String)) (children : List DomNode)
    (hmem : tag ∉ ["i", "b", "s", "pre", "a", "quote", "ss", "e_m", "legacyquote"]) :
    SkypeMessageParser.walkNode em nq (DomNode.elem tag attrs children) =
      SkypeMessageParser.walkChildNodes em nq children ∧
    SkypeMessageParser.walkChildNodes em nq children =
      ⟨concatStrings ((SkypeMessageParser.walkList em nq children).map MessageEvent.body),
       concatStrings ((SkypeMessageParser.walkList em nq children).map MessageEvent.formattedBody)⟩ ∧
    SkypeMessageParser.walkChildNodes em nq [] = ⟨"", ""⟩ := by
  simp only [List.mem_cons, List.not_mem_nil, or_false, not_or] at hmem
  obtain ⟨h1, h2, h3, h4, h5, h6, h7, h8, h9⟩ := hmem
  refine ⟨?_, ?_, ?_⟩
  · simp [SkypeMessageParser.walkNode, SkypeMessageParser.walkChildNodes,
      h1, h2, h3, h4, h5, h6, h7, h8, h9]
  · simp [SkypeMessageParser.walkChildNodes, reduceEvents_eq]
  · rfl

/-- C7 witness: the unknown-tag and empty-children statement evaluated
on a concrete font element. -/
theorem c7_witness :
    SkypeMessageParser.walkNode (fun _ => none) false
        (DomNode.elem "font" [] [DomNode.text "ab", DomNode.text "cd"]) =
      SkypeMessageParser.walkChildNodes (fun _ => none) false
        [DomNode.text "ab", DomNode.text "cd"] ∧
    SkypeMessageParser.walkChildNodes (fun _ => none) false [] = ⟨"", ""⟩ := by
  have h := c7_unknown_tag_and_empty (fun _ => none) false "font" []
    [DomNode.text "ab", DomNode.text "cd"] (by decide)
  exact ⟨h.1, h.2.2⟩

/-- C9.  The claim states that every newline of a decoded text node is
converted to a br line break in the formattedBody projection.  The
source uses s.replace("\n", "<br>") with a plain-string pattern, which
replaces only the first occurrence: on "a\nb\nc" the formattedBody
keeps the second newline. -/
theorem c9_counterexample :
    SkypeMessageParser.escape "a\nb\nc" =
      ⟨"a\nb\nc", "a<br>b\nc"⟩ ∧
    ("a<br>b\nc" : String) ≠ "a<br>b<br>c" := by
  exact ⟨by decide, by decide⟩

theorem jsReplaceFirstChars_no_match {c : Char} {cs : List Char} (rep : List Char)
    (h : c ∉ cs) : jsReplaceFirstChars [c] rep cs = cs := by
  induction cs with
  | nil => rfl
  | cons x xs ih =>
    simp only [List.mem_cons, not_or] at h
    simp only [jsReplaceFirstChars, List.isPrefixOf, List.isPrefixOf_nil_left,
      Bool.and_true]
    rw [if_neg, ih h.2]
    simpa using h.1

theorem jsReplaceFirstChars_first {c : Char} {a : List Char} (rep b : List Char)
    (h : c ∉ a) : jsReplaceFirstChars [c] rep (a ++ c :: b) = a ++ (rep ++ b) := by
  induction a with
  | nil => simp [jsReplaceFirstChars, List.isPrefixOf]
  | cons x xs ih =>
    simp only [List.mem_cons, not_or] at h
    simp only [List.cons_append, jsReplaceFirstChars, List.isPrefixOf,
      List.isPrefixOf_nil_left, Bool.and_true]
    rw [if_neg]
    · simp only [List.append_eq]
      rw [ih h.2]
    · simpa using h.1

/-- C9, amended.  For every text node, the body projection is the
HTML-entity-decoded text; the formattedBody projection converts only
the first newline of the text to a br line break (a text with no
newline passes through unchanged, and any newline after the first is
left as-is). -/
theorem c9_amended (s a b : String) :
    (SkypeMessageParser.escape s).body = decodeHtml s ∧
    ('\n' ∉ s.data → (SkypeMessageParser.escape s).formattedBody = s) ∧
    ('\n' ∉ a.data → s = a ++ "\n" ++ b →
      (SkypeMessageParser.escape s).formattedBody = a ++ "<br>" ++ b) := by
  refine ⟨rfl, fun h => ?_, fun ha hs => ?_⟩
  · apply String.ext
    simp only [SkypeMessageParser.escape, jsReplaceFirst]
    exact jsReplaceFirstChars_no_match _ h
  · apply String.ext
    simp only [SkypeMessageParser.escape, jsReplaceFirst, hs, String.data_append]
    have := jsReplaceFirstChars_first ("<br>".data) b.data ha
    simpa using this

/-- C9 witness: the amended statement evaluated on concrete texts with
zero and one newline. -/
theorem c9_amended_witness :
    (SkypeMessageParser.escape "plain").formattedBody = "plain" ∧
    (SkypeMessageParser.escape "x\ny").formattedBody = "x<br>y" := by
  refine ⟨(c9_amended "plain" "" "").2.1 (by decide), ?_⟩
  have h := (c9_amended "x\ny" "x" "y").2.2 (by decide) (by decide)
  rw [h]
  decide

theorem skypeEmojiTable_ne_empty {ty name : String}
    (h : SkypeMessageParser.skypeEmojiTable ty = some name) : name ≠ "" := by
  unfold SkypeMessageParser.skypeEmojiTable at h
  split at h <;> (cases h <;> decide)

theorem jsStartsWith_colon_wrap (x : String) :
    SkypeMessageParser.jsStartsWith (":" ++ x ++ ":") ":" = true := by
  have h1 : (":" : String).data = [':'] := rfl
  simp [SkypeMessageParser.jsStartsWith, String.data_append, h1, List.isPrefixOf]

theorem ssEmoji_mapped_direct (em : String → Option String) (ty name g : String)
    (htab : SkypeMessageParser.skypeEmojiTable ty = some name)
    (hem : em name = some g)
    (hg : SkypeMessageParser.jsStartsWith g ":" = false) :
    SkypeMessageParser.ssEmoji em ty = ⟨g, g⟩ := by
  have hne : name ≠ "" := skypeEmojiTable_ne_empty htab
  have hgne : g ≠ ":" ++ name ++ ":" := by
    intro hEq
    rw [hEq, jsStartsWith_colon_wrap] at hg
    cases hg
  simp [SkypeMessageParser.ssEmoji, SkypeMessageParser.jsTruthyOpt,
    SkypeMessageParser.emojiGet, htab, hem, hne, hg, hgne]

theorem ssEmoji_mapped_face (em : String → Option String) (ty name g : String)
    (htab : SkypeMessageParser.skypeEmojiTable ty = some name)
    (hem : em name = none)
    (hface : em (name ++ "_face") = some g)
    (hg : SkypeMessageParser.jsStartsWith g ":" = false) :
    SkypeMessageParser.ssEmoji em ty = ⟨g, g⟩ := by
  have hne : name ≠ "" := skypeEmojiTable_ne_empty htab
  simp [SkypeMessageParser.ssEmoji, SkypeMessageParser.jsTruthyOpt,
    SkypeMessageParser.emojiGet, htab, hem, hface, hne, hg]

theorem ssEmoji_unmapped_face (em : String → Option String) (ty g : String)
    (htab : SkypeMessageParser.skypeEmojiTable ty = none)
    (hem : em ty = none)
    (hface : em (ty ++ "_face") = some g)
    (hg : SkypeMessageParser.jsStartsWith g ":" = false) :
    SkypeMessageParser.ssEmoji em ty = ⟨g, g⟩ := by
  simp [SkypeMessageParser.ssEmoji, SkypeMessageParser.jsTruthyOpt,
    SkypeMessageParser.emojiGet, htab, hem, hface, hg]

theorem ssEmoji_unmapped_fallback (em : String → Option String) (ty : String)
    (htab : SkypeMessageParser.skypeEmojiTable ty = none)
    (hem : em ty = none)
    (hface : em (ty ++ "_face") = none) :
    SkypeMessageParser.ssEmoji em ty =
      ⟨"(" ++ ty ++ ")", "(" ++ escapeHtml ty ++ ")"⟩ := by
  have hcol := jsStartsWith_colon_wrap (ty ++ "_face")
  simp [SkypeMessageParser.ssEmoji, SkypeMessageParser.jsTruthyOpt,
    SkypeMessageParser.emojiGet, htab, hem, hface, hcol]

/-- C4.  The emoji fallback chain of the ss case, for any node-emoji
glyph table em: a type in the fixed translation table whose mapped
name resolves to a glyph yields that glyph in both projections; when
the direct resolution fails, the resolution is retried with an
underscore-face suffix on the name being resolved (the mapped
canonical name for a table hit, the raw type otherwise); a type with
no table entry for which neither resolution succeeds yields the
literal parenthesised type as body and its HTML-escaped form as
formattedBody; and type like resolves to the thumbs-up glyph in both
projections whenever node-emoji maps thumbsup to it. -/
theorem c4_emoji_fallback_chain :
    (∀ (em : String → Option String) (ty name g : String),
      SkypeMessageParser.skypeEmojiTable ty = some name → em name = some g →
      SkypeMessageParser.jsStartsWith g ":" = false →
      SkypeMessageParser.ssEmoji em ty = ⟨g, g⟩) ∧
    (∀ (em : String → Option String) (ty name g : String),
      SkypeMessageParser.skypeEmojiTable ty = some name → em name = none →
      em (name ++ "_face") = some g →
      SkypeMessageParser.jsStartsWith g ":" = false →
      SkypeMessageParser.ssEmoji em ty = ⟨g, g⟩) ∧
    (∀ (em : String → Option String) (ty g : String),
      SkypeMessageParser.skypeEmojiTable ty = none → em ty = none →
      em (ty ++ "_face") = some g →
      SkypeMessageParser.jsStartsWith g ":" = false →
      SkypeMessageParser.ssEmoji em ty = ⟨g, g⟩) ∧
    (∀ (em : String → Option String) (ty : String),
      SkypeMessageParser.skypeEmojiTable ty = none → em ty = none →
      em (ty ++ "_face") = none →
      SkypeMessageParser.ssEmoji em ty =
        ⟨"(" ++ ty ++ ")", "(" ++ escapeHtml ty ++ ")"⟩) ∧
    (∀ em : String → Option String, em "thumbsup" = some "👍" →
      SkypeMessageParser.ssEmoji em "like" = ⟨"👍", "👍"⟩) :=
  ⟨ssEmoji_mapped_direct, ssEmoji_mapped_face, ssEmoji_unmapped_face,
   ssEmoji_unmapped_fallback,
   fun em hem => ssEmoji_mapped_direct em "like" "thumbsup" "👍" (by decide) hem (by decide)⟩

/-- C4 witness: each link of the fallback chain evaluated at concrete
emoji tables and types. -/
theorem c4_witness :
    SkypeMessageParser.ssEmoji
        (fun n => if n = "thumbsup" then some "👍" else none) "like" = ⟨"👍", "👍"⟩ ∧
    SkypeMessageParser.ssEmoji
        (fun n => if n = "grin_face" then some "😁" else none) "laugh" = ⟨"😁", "😁"⟩ ∧
    SkypeMessageParser.ssEmoji
        (fun n => if n = "zzz_face" then some "😴" else none) "zzz" = ⟨"😴", "😴"⟩ ∧
    SkypeMessageParser.ssEmoji (fun _ => none) "wasntme" =
      ⟨"(wasntme)", "(wasntme)"⟩ := by
  refine ⟨?_, ?_, ?_, ?_⟩
  · exact c4_emoji_fallback_chain.1 _ "like" "thumbsup" "👍" (by decide) (by decide) (by decide)
  · exact c4_emoji_fallback_chain.2.1 _ "laugh" "grin" "😁" (by decide) (by decide) (by decide)
      (by decide)
  · exact c4_emoji_fallback_chain.2.2.1 _ "zzz" "😴" (by decide) (by decide) (by decide)
      (by decide)
  · exact c4_emoji_fallback_chain.2.2.2.1 _ "wasntme" (by decide) (by decide) (by decide)

/-- C10.  For every ss type with a translation-table entry whose
mapped canonical name resolves to no glyph either directly or with
the underscore-face retry, the parser returns the mapped canonical
name itself, unescaped, as both body and formattedBody — not the
parenthesised-type literal fallback. -/
theorem c10_mapped_name_fallback (em : String → Option String) (ty name : String)
    (htab : SkypeMessageParser.skypeEmojiTable ty = some name)
    (hem : em name = none)
    (hface : em (name ++ "_face") = none) :
    SkypeMessageParser.ssEmoji em ty = ⟨name, name⟩ := by
  have hne : name ≠ "" := skypeEmojiTable_ne_empty htab
  have hcol := jsStartsWith_colon_wrap (name ++ "_face")
  simp [SkypeMessageParser.ssEmoji, SkypeMessageParser.jsTruthyOpt,
    SkypeMessageParser.emojiGet, htab, hem, hface, hne, hcol]

/-- C10 witness: the type shivering maps to a glyph-valued table
entry that node-emoji cannot resolve, and the entry itself is
returned in both projections. -/
theorem c10_witness :
    SkypeMessageParser.ssEmoji (fun _ => none) "shivering" = ⟨"🥶", "🥶"⟩ :=
  c10_mapped_name_fallback (fun _ => none) "shivering" "🥶" (by decide) (by decide) (by decide)

theorem convLookup_negative (vapi : String → Option Client.Conversation)
    (vst : List (String × Option Client.Conversation)) (id : String)
    (h : (Client.convLookup vapi vst id).1 = none) :
    Client.convLookup vapi (Client.convLookup vapi vst id).2.1 id =
      (none, (Client.convLookup vapi vst id).2.1, 0) := by
  simp only [Client.convLookup] at h ⊢
  cases hl : mapLookup vst id with
  | some cached =>
    simp only [hl] at h ⊢
    cases cached with
    | none => simp
    | some c => simp at h
  | none =>
    cases ha : vapi id with
    | some conv => simp [hl, ha] at h
    | none => simp [hl, ha, mapLookup_mapSet_self]

/-- C5.  Once a getContact (resp. getConversation) call has answered
absent — in particular after a failed remote lookup recorded a
negative cache entry — a second call with the same id answers absent
again, leaves the cache unchanged, and issues zero additional remote
lookups; and by construction (both functions are total, every remote
failure being the oracle's none), the failed lookup is never surfaced
as an exception. -/
theorem c5_negative_cache :
    (∀ (capi : String → Option Client.SkypeContact)
        (cst : List (String × Option Client.SkypeContact)) (id : String),
      (Client.getContact capi cst id).1 = none →
      Client.getContact capi (Client.getContact capi cst id).2.1 id =
        (none, (Client.getContact capi cst id).2.1, 0)) ∧
    (∀ (vapi : String → Option Client.Conversation)
        (vst : List (String × Option Client.Conversation)) (room : Client.RemoteRoom),
      (Client.getConversation vapi vst room).1 = none →
      Client.getConversation vapi (Client.getConversation vapi vst room).2.1 room =
        (none, (Client.getConversation vapi vst room).2.1, 0)) := by
  constructor
  · intro capi cst id h
    simp only [Client.getContact] at h ⊢
    cases hl : mapLookup cst (if hasNumColonStart id.data then id else "8:" ++ id) with
    | some cached =>
      simp only [hl] at h ⊢
      cases cached with
      | none => simp
      | some c => simp at h
    | none =>
      cases ha : capi (if hasNumColonStart id.data then afterFirstColon id else id) with
      | some c => simp [hl, ha] at h
      | none => simp [hl, ha, mapLookup_mapSet_self]
  · intro vapi vst room h
    simp only [Client.getConversation] at h ⊢
    cases hm : dmMatch room.roomId with
    | some rest =>
      simp only [hm] at h ⊢
      by_cases hcond : jsToNat ((jsSplit room.roomId '-').getD 1 "") = some room.puppetId
      · have hcond2 : ¬(jsToNat ((jsSplit room.roomId '-').getD 1 "") ≠ some room.puppetId) :=
          fun hne => hne hcond
        simp only [if_neg hcond2] at h ⊢
        exact convLookup_negative vapi vst rest h
      · simp only [if_pos hcond] at h ⊢
    | none =>
      simp only [hm] at h ⊢
      exact convLookup_negative vapi vst room.roomId h

/-- C5 witness: after a failed lookup of a contact and of a group
conversation, the second call answers from the negative cache with
zero remote calls. -/
theorem c5_witness :
    Client.getContact (fun _ => none) [("8:bob", none)] "bob" =
      (none, [("8:bob", none)], 0) ∧
    Client.getConversation (fun _ => none) [("19:grp", none)] ⟨1, "19:grp"⟩ =
      (none, [("19:grp", none)], 0) := by
  constructor
  · have h := c5_negative_cache.1 (fun _ => none) [] "bob" (by decide)
    rw [(by decide : (Client.getContact (fun _ => none) [] "bob").2.1 =
      [("8:bob", none)])] at h
    exact h
  · have h := c5_negative_cache.2 (fun _ => none) [] ⟨1, "19:grp"⟩ (by decide)
    rw [(by decide : (Client.getConversation (fun _ => none) [] ⟨1, "19:grp"⟩).2.1 =
      [("19:grp", none)])] at h
    exact h

theorem splitOnChar_ne_nil (sep : Char) (l : List Char) : splitOnChar sep l ≠ [] := by
  cases l with
  | nil => simp [splitOnChar]
  | cons c rest =>
    unfold splitOnChar
    cases splitOnChar sep rest <;> dsimp <;> split <;> simp

theorem splitOnChar_append (sep : Char) (a b : List Char) (ha : sep ∉ a) :
    splitOnChar sep (a ++ sep :: b) = a :: splitOnChar sep b := by
  induction a with
  | nil =>
    simp only [List.nil_append, splitOnChar]
    cases h : splitOnChar sep b with
    | nil => exact absurd h (splitOnChar_ne_nil sep b)
    | cons g gs => simp
  | cons x xs ih =>
    simp only [List.mem_cons, not_or] at ha
    simp only [List.cons_append, splitOnChar, List.append_eq, ih ha.2]
    rw [if_neg (fun hh => ha.1 hh.symm)]

theorem takeWhile_append_cons {α : Type} (p : α → Bool) (a : List α) (c : α) (b : List α)
    (ha : ∀ x ∈ a, p x = true) (hc : p c = false) :
    (a ++ c :: b).takeWhile p = a := by
  induction a with
  | nil => simp [List.takeWhile_cons, hc]
  | cons x xs ih =>
    have hx := ha x (by simp)
    simp [List.takeWhile_cons, hx, ih (fun y hy => ha y (by simp [hy]))]

theorem dmMatch_composite (digits rest : String)
    (h1 : digits.data ≠ []) (h2 : ∀ c ∈ digits.data, c.isDigit = true) :
    dmMatch ("dm-" ++ digits ++ "-" ++ rest) = some rest := by
  have hdata : ("dm-" ++ digits ++ "-" ++ rest).data =
      'd' :: 'm' :: '-' :: (digits.data ++ '-' :: rest.data) := by
    have hdm : ("dm-" : String).data = ['d', 'm', '-'] := rfl
    have hdash : ("-" : String).data = ['-'] := rfl
    simp [String.data_append, hdm, hdash]
  have htake : (digits.data ++ '-' :: rest.data).takeWhile Char.isDigit = digits.data :=
    takeWhile_append_cons Char.isDigit digits.data '-' rest.data h2 (by decide)
  unfold dmMatch
  rw [hdata]
  simp only [htake, List.drop_left, h1, ite_false, if_neg h1]

theorem jsSplit_composite (digits rest : String)
    (_h1 : digits.data ≠ []) (h2 : ∀ c ∈ digits.data, c.isDigit = true) :
    jsSplit ("dm-" ++ digits ++ "-" ++ rest) '-' =
      "dm" :: digits :: jsSplit rest '-' := by
  have hdata : ("dm-" ++ digits ++ "-" ++ rest).data =
      ('d' :: 'm' :: []) ++ '-' :: (digits.data ++ '-' :: rest.data) := by
    have hdm : ("dm-" : String).data = ['d', 'm', '-'] := rfl
    have hdash : ("-" : String).data = ['-'] := rfl
    simp [String.data_append, hdm, hdash]
  have hnd : ('-' : Char) ∉ digits.data := by
    intro hin
    have := h2 '-' hin
    simp at this
  unfold jsSplit
  rw [hdata, splitOnChar_append '-' ('d' :: 'm' :: []) _ (by decide),
    splitOnChar_append '-' digits.data rest.data hnd]
  simp [jsSplit]

/-- C8.  A direct-conversation room spec whose roomId carries the
composite dm-(digits)- prefix is validated against the requesting
account: when the embedded decimal account id differs from the spec's
puppetId, getConversation answers absent without touching cache or
remote; when it matches, the composite prefix is stripped and the
lookup proceeds on the bare conversation id.  A roomId without the
composite prefix (a group conversation) is looked up by its raw
remote id.  Conversely, getRoomParams addresses every direct
conversation (numeric kind 8) by dm-(puppetId)-(conversation id) and
every other conversation by its raw remote id. -/
theorem c8_composite_dm_keys :
    (∀ (vapi : String → Option Client.Conversation)
        (vst : List (String × Option Client.Conversation))
        (n : Nat) (digits rest : String),
      digits.data ≠ [] → (∀ c ∈ digits.data, c.isDigit = true) →
      (digitVal digits.data ≠ n →
        Client.getConversation vapi vst ⟨n, "dm-" ++ digits ++ "-" ++ rest⟩ =
          (none, vst, 0)) ∧
      (digitVal digits.data = n →
        Client.getConversation vapi vst ⟨n, "dm-" ++ digits ++ "-" ++ rest⟩ =
          Client.convLookup vapi vst rest)) ∧
    (∀ (vapi : String → Option Client.Conversation)
        (vst : List (String × Option Client.Conversation)) (room : Client.RemoteRoom),
      dmMatch room.roomId = none →
      Client.getConversation vapi vst room = Client.convLookup vapi vst room.roomId) ∧
    (∀ (pid : Nat) (conv : Client.Conversation),
      jsToNat ((jsSplit conv.id ':').getD 0 "") = some 8 →
      Skype.getRoomParams pid conv =
        ⟨pid, "dm-" ++ toString pid ++ "-" ++ conv.id, true, none, none⟩) ∧
    (∀ (pid : Nat) (conv : Client.Conversation),
      jsToNat ((jsSplit conv.id ':').getD 0 "") ≠ some 8 →
      (Skype.getRoomParams pid conv).roomId = conv.id ∧
      (Skype.getRoomParams pid conv).isDirect = false) := by
  refine ⟨?_, ?_, ?_, ?_⟩
  · intro vapi vst n digits rest h1 h2
    have hm := dmMatch_composite digits rest h1 h2
    have hs := jsSplit_composite digits rest h1 h2
    have hnum : jsToNat ((jsSplit ("dm-" ++ digits ++ "-" ++ rest) '-').getD 1 "") =
        some (digitVal digits.data) := by
      rw [hs]
      have hg : ("dm" :: digits :: jsSplit rest '-').getD 1 "" = digits := by
        simp [List.getD_eq_getElem?_getD]
      rw [hg]
      simp only [jsToNat]
      rw [if_neg h1, if_pos (List.all_eq_true.mpr h2)]
    constructor
    · intro hne
      simp only [Client.getConversation, hm]
      rw [if_pos]
      rw [hnum]
      simp [hne]
    · intro heq
      simp only [Client.getConversation, hm]
      rw [if_neg]
      rw [hnum, heq]
      simp
  · intro vapi vst room hm
    simp only [Client.getConversation, hm]
  · intro pid conv h
    rw [List.getD_eq_getElem?_getD] at h
    simp [Skype.getRoomParams, h]
  · intro pid conv h
    rw [List.getD_eq_getElem?_getD] at h
    simp [Skype.getRoomParams, h]

/-- C8 witness: the composite-key statements evaluated on a concrete
direct conversation and a concrete group conversation. -/
theorem c8_witness :
    Client.getConversation (fun _ => none) [] ⟨7, "dm-3-8:bob"⟩ = (none, [], 0) ∧
    Client.getConversation (fun _ => none) [("8:bob", some ⟨"8:bob", none, []⟩)]
        ⟨3, "dm-3-8:bob"⟩ =
      (some ⟨"8:bob", none, []⟩, [("8:bob", some ⟨"8:bob", none, []⟩)], 0) ∧
    Skype.getRoomParams 3 ⟨"8:bob", none, []⟩ =
      ⟨3, "dm-3-8:bob", true, none, none⟩ := by
  have h1 := (c8_composite_dm_keys.1 (fun _ => none) [] 7 "3" "8:bob"
    (by decide) (by decide)).1 (by decide)
  have h2 := (c8_composite_dm_keys.1 (fun _ => none)
    [("8:bob", some ⟨"8:bob", none, []⟩)] 3 "3" "8:bob" (by decide) (by decide)).2 (by decide)
  have h3 := c8_composite_dm_keys.2.2.1 3 ⟨"8:bob", none, []⟩ (by decide)
  refine ⟨?_, ?_, ?_⟩
  · rw [(by decide : ("dm-" ++ "3" ++ "-" ++ "8:bob" : String) = "dm-3-8:bob")] at h1
    exact h1
  · rw [(by decide : ("dm-" ++ "3" ++ "-" ++ "8:bob" : String) = "dm-3-8:bob")] at h2
    rw [h2]
    decide
  · rw [(by decide : ("dm-" ++ toString 3 ++ "-" ++ "8:bob" : String) = "dm-3-8:bob")] at h3
    exact h3

/-- C2.  The claim states that message, edit, and file sends all
unlock their dedup entry with the server-assigned message id of the
send.  For the edit handler the source never consults the send result:
it unlocks with the local constant newEventId = "", as this concrete
run shows (the lock/unlock pair brackets the send, but the unlock id
is the empty string, not a server-assigned id, and no event-sync
insert ever happens for edits). -/
theorem c2_counterexample :
    Skype.handleMatrixEdit (some ⟨"8:me", []⟩) (some ⟨"8:bob", none, []⟩)
        ⟨1, "room1"⟩ "mid5" "hi" none "mx1" =
      [Skype.Effect.lock "1;room1" "8:me" "hi",
       Skype.Effect.clientSendEdit "8:bob" "mid5" "hi",
       Skype.Effect.unlock "1;room1" "8:me" ""] := by decide

/-- C2, amended.  Every outbound message and file event that reaches
the send step locks the dedup entry keyed puppetId;roomId against the
account's own remote username and the rendered text (resp. the
file:name marker) immediately before the remote send, and unlocks it
with the server-assigned MessageId immediately after (inserting the
event-sync mapping exactly when that id is non-empty); an edit event
locks the same way before the send but unlocks with the empty string
rather than a server-assigned id, and never inserts an event-sync
mapping. -/
theorem c2_amended :
    (∀ (u : String) (dm : List String) (conv : Client.Conversation)
        (room : Client.RemoteRoom) (body mx sid : String) (fdom : Option DomNode),
      Skype.handleMatrixMessage (some ⟨u, dm⟩) (some conv) room body fdom mx sid =
        [Skype.Effect.lock (Skype.dedupeKey room.puppetId room.roomId) u
           (Skype.renderMatrix fdom body),
         Skype.Effect.clientSendMessage conv.id (Skype.renderMatrix fdom body),
         Skype.Effect.unlock (Skype.dedupeKey room.puppetId room.roomId) u sid]
        ++ (if sid ≠ "" then [Skype.Effect.eventInsert room.puppetId mx sid] else [])) ∧
    (∀ (u : String) (dm : List String) (conv : Client.Conversation)
        (room : Client.RemoteRoom) (url fn mx sid : String) (method : Option String),
      Skype.handleMatrixFile (some ⟨u, dm⟩) (some conv) room url fn mx sid method =
        [Skype.Effect.downloadFile url,
         Skype.Effect.lock (Skype.dedupeKey room.puppetId room.roomId) u ("file:" ++ fn),
         Skype.Effect.clientSendFile (method.getD "sendDocument") conv.id fn,
         Skype.Effect.unlock (Skype.dedupeKey room.puppetId room.roomId) u sid]
        ++ (if sid ≠ "" then [Skype.Effect.eventInsert room.puppetId mx sid] else [])) ∧
    (∀ (u : String) (dm : List String) (conv : Client.Conversation)
        (room : Client.RemoteRoom) (eid body mx : String) (fdom : Option DomNode),
      Skype.handleMatrixEdit (some ⟨u, dm⟩) (some conv) room eid body fdom mx =
        [Skype.Effect.lock (Skype.dedupeKey room.puppetId room.roomId) u
           (Skype.renderMatrix fdom body),
         Skype.Effect.clientSendEdit conv.id eid (Skype.renderMatrix fdom body),
         Skype.Effect.unlock (Skype.dedupeKey room.puppetId room.roomId) u ""]) := by
  refine ⟨fun u dm conv room body mx sid fdom => rfl,
          fun u dm conv room url fn mx sid method => rfl,
          fun u dm conv room eid body mx fdom => ?_⟩
  simp [Skype.handleMatrixEdit]

/-- C3.  For every inbound remote edit event that passes the dedup
check: non-empty replacement content yields a home-network edit
operation on the resource's id; empty content whose id sits in the
account's deletedMessages set is suppressed with no home-network
operation; empty content with the id absent from that set yields a
home-network redact. -/
theorem c3_edit_redact_correlation :
    ∀ (em : String → Option String) (hp : String → DomNode) (u : String)
      (dm : List String) (ps : Skype.SendParams) (pid : Nat)
      (mt content rid : String) (off : Option Nat),
      (content ≠ "" →
        Skype.handleSkypeEdit em hp (some ⟨u, dm⟩) (some ps) false pid mt content rid off =
          [Skype.Effect.dedupeCheck (Skype.dedupeKey pid ps.roomRoomId) ps.userUserId
             ps.eventId (Skype.emoteStrip content off),
           Skype.Effect.homeSendEdit rid
             (Skype.renderSkype em hp (SkypeMessageParser.jsStartsWith mt "RichText")
               (Skype.emoteStrip content off) off.isSome)]) ∧
      (content = "" → dm.contains rid = true →
        Skype.handleSkypeEdit em hp (some ⟨u, dm⟩) (some ps) false pid mt content rid off =
          [Skype.Effect.dedupeCheck (Skype.dedupeKey pid ps.roomRoomId) ps.userUserId
             ps.eventId (Skype.emoteStrip content off)]) ∧
      (content = "" → dm.contains rid = false →
        Skype.handleSkypeEdit em hp (some ⟨u, dm⟩) (some ps) false pid mt content rid off =
          [Skype.Effect.dedupeCheck (Skype.dedupeKey pid ps.roomRoomId) ps.userUserId
             ps.eventId (Skype.emoteStrip content off),
           Skype.Effect.homeSendRedact rid]) := by
  intro em hp u dm ps pid mt content rid off
  refine ⟨fun hne => ?_, fun hemp hmem => ?_, fun hemp hnmem => ?_⟩
  · simp [Skype.handleSkypeEdit, hne]
  · simp only [Skype.handleSkypeEdit]
    simp [hemp]
    simpa using hmem
  · simp only [Skype.handleSkypeEdit]
    simp [hemp]
    simpa using hnmem

/-- C3 witness: the three correlation branches evaluated on concrete
edit notifications. -/
theorem c3_witness :
    Skype.handleSkypeEdit (fun _ => none) DomNode.text (some ⟨"8:me", ["d1"]⟩)
        (some ⟨"8:bob", "room1", "ev1"⟩) false 1 "RichText" "new text" "m1" none =
      [Skype.Effect.dedupeCheck "1;room1" "8:bob" "ev1" "new text",
       Skype.Effect.homeSendEdit "m1"
         ⟨"new text", some "new text", false⟩] ∧
    Skype.handleSkypeEdit (fun _ => none) DomNode.text (some ⟨"8:me", ["d1"]⟩)
        (some ⟨"8:bob", "room1", "ev1"⟩) false 1 "RichText" "" "d1" none =
      [Skype.Effect.dedupeCheck "1;room1" "8:bob" "ev1" ""] ∧
    Skype.handleSkypeEdit (fun _ => none) DomNode.text (some ⟨"8:me", ["d1"]⟩)
        (some ⟨"8:bob", "room1", "ev1"⟩) false 1 "RichText" "" "m2" none =
      [Skype.Effect.dedupeCheck "1;room1" "8:bob" "ev1" "",
       Skype.Effect.homeSendRedact "m2"] := by
  have h := c3_edit_redact_correlation (fun _ => none) DomNode.text "8:me" ["d1"]
    ⟨"8:bob", "room1", "ev1"⟩ 1 "RichText"
  refine ⟨?_, ?_, ?_⟩
  · have h1 := (h "new text" "m1" none).1 (by decide)
    rw [h1]
    decide
  · exact (h "" "d1" none).2.1 (by decide) (by decide)
  · exact (h "" "m2" none).2.2 (by decide) (by decide)

/-- C6.  Client.connect attempts session reuse exactly when a
persisted blob is present and falls back to credential login on reuse
failure or absence; a failed post-connect validation on a reused
session retries the whole sequence exactly once with credentials; and
whenever credential login fails, connect fails with the
authentication error after that single credential attempt, never
retrying it. -/
theorem c6_connect_policy :
    ∀ env : Client.ConnectEnv,
      (env.hasState = true →
        (Client.connect env).1.head? = some Client.ConnectAttempt.reuse) ∧
      (env.hasState = false →
        (Client.connect env).1 = [Client.ConnectAttempt.creds]) ∧
      (env.hasState = true → env.reuseOk = false →
        (Client.connect env).1 =
          [Client.ConnectAttempt.reuse, Client.ConnectAttempt.creds]) ∧
      (env.hasState = true → env.reuseOk = true → env.startupReuseOk = true →
        env.listenErrorReuse = true →
        (Client.connect env).1 =
          [Client.ConnectAttempt.reuse, Client.ConnectAttempt.creds]) ∧
      (env.credsOk = false → Client.ConnectAttempt.creds ∈ (Client.connect env).1 →
        (Client.connect env).2 = Client.ConnectResult.fail Client.ConnectError.credsConnect ∧
        (Client.connect env).1.count Client.ConnectAttempt.creds = 1) := by
  intro env
  obtain ⟨a, b, c, d, e, f⟩ := env
  cases a <;> cases b <;> cases c <;> cases d <;> cases e <;> cases f <;> decide

/-- C6 witness: the connect policy evaluated on a reused session whose
validation fails while credentials are rejected, on a credentials-only
account, and on a rejected session blob. -/
theorem c6_witness :
    (Client.connect ⟨true, true, false, true, true, true⟩).1.head? =
      some Client.ConnectAttempt.reuse ∧
    (Client.connect ⟨true, true, false, true, true, true⟩).1 =
      [Client.ConnectAttempt.reuse, Client.ConnectAttempt.creds] ∧
    (Client.connect ⟨true, true, false, true, true, true⟩).2 =
      Client.ConnectResult.fail Client.ConnectError.credsConnect ∧
    (Client.connect ⟨false, true, true, true, true, false⟩).1 =
      [Client.ConnectAttempt.creds] ∧
    (Client.connect ⟨true, false, true, true, true, false⟩).1 =
      [Client.ConnectAttempt.reuse, Client.ConnectAttempt.creds] := by
  have h1 := c6_connect_policy ⟨true, true, false, true, true, true⟩
  have h2 := c6_connect_policy ⟨false, true, true, true, true, false⟩
  have h3 := c6_connect_policy ⟨true, false, true, true, true, false⟩
  refine ⟨h1.1 (by decide), h1.2.2.2.1 (by decide) (by decide) (by decide) (by decide),
    (h1.2.2.2.2 (by decide) (by decide)).1, h2.2.1 (by decide),
    h3.2.2.1 (by decide) (by decide)⟩
